import Mathlib

/-!
Verification of the alignment engine of the Prokudin-Gorskii colour-image
reconstruction repository (src/code/alignment.py and the circular-shift
utility of src/code/utils.py).

Shallow embedding conventions:
* a numpy 2-D array ("Sample Grid") is a list of rows of rational samples
  (the code casts integer pixels to float32; floats are modelled by exact
  rationals, and real arithmetic is used where the code takes square roots);
* np.roll is an exact rotation of the row list and of each row;
* Python slicing g[a:b] is drop a followed by take (b - a), which also
  matches the clamping behaviour of slices whose stop exceeds the length;
* Python int() on a nonnegative float is truncation, modelled by pyInt;
* the -inf / +inf sentinel that seeds the best score in the search loops is
  modelled by an Option score: none is the sentinel and is beaten by every
  (finite) candidate score, exactly as every float beats the infinities;
* the assert that both inputs are 2-dimensional is rendered vacuous by the
  Grid type itself (a list of rows is always 2-dimensional); the code
  performs no further shape comparison.
-/

/-- A sample grid: a list of rows of rational intensity samples. -/
abbrev Grid : Type := List (List ℚ)

/-- Height of a grid (first component of numpy shape). -/
def gridH (g : Grid) : ℤ := (List.length g : ℤ)

/-- Width of a grid (length of the first row, second component of numpy
shape; numpy arrays are rectangular). -/
def gridW (g : Grid) : ℤ := (List.length (List.headD g []) : ℤ)

/-- Shape (h, w) of a grid, as reference.shape produces it. -/
def gridShape (g : Grid) : ℤ × ℤ := (gridH g, gridW g)

/-- All samples of a grid in row-major order. -/
def flatG (g : Grid) : List ℚ := List.flatten g

/-- Rectangularity: every row has the width of the first row.  numpy
arrays satisfy this by construction. -/
def IsRect (g : Grid) : Prop := ∀ row ∈ g, (List.length row : ℤ) = gridW g

instance (g : Grid) : Decidable (IsRect g) := by
  unfold IsRect; exact List.decidableBAll _ g

/-- Rotation of a list by k positions to the right with wrap-around,
exactly np.roll(l, k) on one axis: result[i] = l[(i - k) mod m]. -/
def rotList {α : Type} (k : ℤ) (l : List α) : List α :=
  if List.length l = 0 then l
  else
    let kp := (k % (List.length l : ℤ)).toNat
    List.drop (List.length l - kp) l ++ List.take (List.length l - kp) l

/-- Two-axis circular shift, np.roll(g, shift=(dy, dx), axis=(0, 1)):
rows rotate by dy, then each row rotates by dx. -/
def roll2 (g : Grid) (dy dx : ℤ) : Grid :=
  (rotList dy g).map (fun row => rotList dx row)

/-- utils.apply_alignment: shift a channel by integer (dx, dy), +dx right
and +dy down, via np.roll(channel, shift=(dy, dx), axis=(0, 1)). -/
def apply_alignment (channel : Grid) (dx dy : ℤ) : Grid :=
  roll2 channel dy dx

/-- Python str.lower(), characterwise ASCII lowering of the metric name. -/
def pyLower (s : String) : String := String.mk (s.data.map Char.toLower)

/-- Python int() applied to an exact rational: truncation toward zero. -/
def pyInt (q : ℚ) : ℤ := if q < 0 then -(Int.floor (-q)) else Int.floor q

/-- Crop margin for one dimension, the inline expression
min(max(0, int(d * edge_crop)), d // 4) of align_bruteforce (and of the
per-level loop of pyramid_align). -/
def crop_margin (d : ℤ) (edge_crop : ℚ) : ℤ :=
  min (max 0 (pyInt ((d : ℚ) * edge_crop))) (d / 4)

/-- Python slice g[ch : h-ch, cw : w-cw] on a 2-D array, where h, w, ch, cw
come from the reference grid of the enclosing search. -/
def crop2 (g : Grid) (ch cw h w : ℤ) : Grid :=
  ((List.drop ch.toNat g).take (h - ch - ch).toNat).map
    (fun row => (List.drop cw.toNat row).take (w - cw - cw).toNat)

/-- Scoring window of the search: the grid g cropped with the margins that
the search derives from the reference grid ref_l and the edge-crop
fraction. -/
def cropWin (ref_l g : Grid) (edge_crop : ℚ) : Grid :=
  crop2 g (crop_margin (gridH ref_l) edge_crop) (crop_margin (gridW ref_l) edge_crop)
    (gridH ref_l) (gridW ref_l)

/-- Epsilon guard 1e-8 added to each standard deviation in ncc_metric. -/
def epsQ : ℚ := 1 / 100000000

/-- Mean of all samples of a grid (numpy a.mean(), exact). -/
def gridMean (g : Grid) : ℚ := (flatG g).sum / ((flatG g).length : ℚ)

/-- Population variance of a grid, mean of squared deviations, so that the
numpy standard deviation a.std() is its square root. -/
def gridVar (g : Grid) : ℚ :=
  ((flatG g).map (fun x => (x - gridMean g) * (x - gridMean g))).sum / ((flatG g).length : ℚ)

/-- Standard deviation a.std() of a grid, as a real number. -/
noncomputable def grid_std (g : Grid) : ℝ := Real.sqrt ((gridVar g : ℝ))

/-- alignment.ssd_metric: sum of squared differences, lower is better.
Equal-shaped inputs are paired samplewise (zip of the row-major sample
streams). -/
noncomputable def ssd_metric (a b : Grid) : ℝ :=
  (((flatG a).zip (flatG b)).map
    (fun p => ((p.1 : ℝ) - (p.2 : ℝ)) * ((p.1 : ℝ) - (p.2 : ℝ)))).sum

/-- Exact rational value of ssd_metric, used to evaluate SSD searches. -/
def ssdQ (a b : Grid) : ℚ :=
  (((flatG a).zip (flatG b)).map (fun p => (p.1 - p.2) * (p.1 - p.2))).sum

/-- alignment.ncc_metric: sum over paired samples of the product of the
z-scored values, where each z-score divides by std + 1e-8.  Higher is
better. -/
noncomputable def ncc_metric (a b : Grid) : ℝ :=
  (((flatG a).zip (flatG b)).map
    (fun p => (((p.1 : ℝ) - (gridMean a : ℝ)) / (grid_std a + (epsQ : ℝ))) *
              (((p.2 : ℝ) - (gridMean b : ℝ)) / (grid_std b + (epsQ : ℝ))))).sum

/-- Numerator of ncc_metric: the sum of products of the centred paired
samples, an exact rational. -/
def nccNum (a b : Grid) : ℚ :=
  (((flatG a).zip (flatG b)).map
    (fun p => (p.1 - gridMean a) * (p.2 - gridMean b))).sum

/-- Python range(lo, hi) over integers. -/
def intRange (lo hi : ℤ) : List ℤ :=
  (List.range (hi - lo).toNat).map (fun (i : ℕ) => lo + (i : ℤ))

/-- Candidate displacements of the exhaustive search, in enumeration order:
dy is the outer loop and dx the inner loop, both running over
range(-R, R+1); each candidate is recorded as the pair (dx, dy). -/
def candList (R : ℤ) : List (ℤ × ℤ) :=
  (intRange (-R) (R + 1)).flatMap
    (fun dy => (intRange (-R) (R + 1)).map (fun dx => (dx, dy)))

/-- Strict better-than relation on scores: for NCC (u = true) a strictly
greater score wins, for SSD (u = false) a strictly smaller one. -/
def beats (u : Bool) (x y : ℝ) : Prop := if u then y < x else x < y

/-- One iteration of the search loop: replace the tracked best candidate
exactly when the new score strictly beats it; the none state is the
-inf / +inf sentinel that any first score beats. -/
noncomputable def stepBest (u : Bool) (f : ℤ × ℤ → ℝ) (st : ℤ × ℤ × Option ℝ)
    (c : ℤ × ℤ) : ℤ × ℤ × Option ℝ :=
  match st.2.2 with
  | none => (c.1, c.2, some (f c))
  | some b =>
    if u then (if b < f c then (c.1, c.2, some (f c)) else st)
    else (if f c < b then (c.1, c.2, some (f c)) else st)

/-- Score of one candidate displacement c = (dx, dy): crop the reference
and the circularly shifted target with the reference-derived margins and
apply the selected metric, as the body of the search loop does. -/
noncomputable def cand_score (ref_l est : Grid) (edge_crop : ℚ) (use_ncc : Bool)
    (c : ℤ × ℤ) : ℝ :=
  if use_ncc then ncc_metric (cropWin ref_l ref_l edge_crop) (cropWin ref_l (roll2 est c.2 c.1) edge_crop)
  else ssd_metric (cropWin ref_l ref_l edge_crop) (cropWin ref_l (roll2 est c.2 c.1) edge_crop)

/-- Exact rational candidate score for the SSD branch. -/
def cand_score_q (ref_l est : Grid) (edge_crop : ℚ) (c : ℤ × ℤ) : ℚ :=
  ssdQ (cropWin ref_l ref_l edge_crop) (cropWin ref_l (roll2 est c.2 c.1) edge_crop)

/-- The exhaustive double loop shared verbatim by align_bruteforce and the
per-level search of pyramid_align: fold the strict-improvement step over
all candidates, starting from best_dx = best_dy = 0 and the infinite
sentinel score. -/
noncomputable def bestShift (ref_l est : Grid) (radius : ℤ) (use_ncc : Bool)
    (edge_crop : ℚ) : ℤ × ℤ × Option ℝ :=
  (candList radius).foldl (stepBest use_ncc (cand_score ref_l est edge_crop use_ncc))
    (0, 0, none)

/-- alignment.align_bruteforce.  The assert that both inputs are
2-dimensional holds by the Grid type; no shape comparison is performed.
Margins and h, w come from the reference grid only. -/
noncomputable def align_bruteforce (reference target : Grid) (search_range : ℤ)
    (metric : String) (edge_crop : ℚ) : ℤ × ℤ × Option ℝ :=
  bestShift reference target search_range (pyLower metric == "ncc") edge_crop

/-- Score that align_bruteforce assigns to a candidate displacement. -/
noncomputable def align_score (reference target : Grid) (metric : String)
    (edge_crop : ℚ) (c : ℤ × ℤ) : ℝ :=
  cand_score reference target edge_crop (pyLower metric == "ncc") c

/-- Returned displacement (best_dx, best_dy) of a search result. -/
def alignD (r : ℤ × ℤ × Option ℝ) : ℤ × ℤ := (r.1, r.2.1)

/-- Every second element of a list, the slice l[::2]. -/
def everySecond {α : Type} : List α → List α
  | [] => []
  | [x] => [x]
  | x :: _ :: rest => x :: everySecond rest

/-- Pyramid downsampling by decimation, g[::2, ::2]. -/
def downsample (g : Grid) : Grid := (everySecond g).map (fun row => everySecond row)

/-- Pyramid level set: level k is the source grid downsampled k times;
the loop of pyramid_align builds exactly these max(1, levels) grids. -/
def pyrLevels (g : Grid) (n : ℕ) : List Grid :=
  (List.range n).map (fun k => downsample^[k] g)

/-- Radius of the per-level search of pyramid_align, the line
search = base_search if lvl == 0 else refine_search. -/
def pyramid_level_radius (base_search refine_search : ℤ) (lvl : ℕ) : ℤ :=
  if lvl = 0 then base_search else refine_search

/-- alignment.pyramid_align: build both pyramids, then traverse levels
from coarsest (index max(1, levels) - 1) to finest (index 0), at each level
re-applying the accumulated displacement to the level's target, running the
exhaustive per-level search, accumulating its result and doubling the
accumulator before every descent to a finer level. -/
noncomputable def pyramid_align (reference target : Grid) (levels : ℕ)
    (base_search refine_search : ℤ) (metric : String) (edge_crop : ℚ) : ℤ × ℤ :=
  let n := max 1 levels
  let refs := pyrLevels reference n
  let tars := pyrLevels target n
  let use_ncc := pyLower metric == "ncc"
  (List.range n).reverse.foldl
    (fun acc lvl =>
      let ref_l := refs.getD lvl []
      let tar_l := tars.getD lvl []
      let est := roll2 tar_l acc.2 acc.1
      let r := bestShift ref_l est (pyramid_level_radius base_search refine_search lvl)
        use_ncc edge_crop
      let acc2 := (acc.1 + r.1, acc.2 + r.2.1)
      if lvl = 0 then acc2 else (acc2.1 * 2, acc2.2 * 2))
    ((0 : ℤ), (0 : ℤ))

/-- Spec-side margin formula of C5, modelled from the spec words
"margin = clamp(round(dimension_size * edge_crop), 0, dimension_size // 4)"
with round-to-nearest rounding. -/
def margin_spec_round (d : ℤ) (edge_crop : ℚ) : ℤ :=
  min (max 0 (round ((d : ℚ) * edge_crop))) (d / 4)

/-! ### Candidate enumeration facts -/

theorem intRange_mem {lo hi x : ℤ} : x ∈ intRange lo hi ↔ lo ≤ x ∧ x < hi := by
  unfold intRange
  simp only [List.mem_map, List.mem_range]
  constructor
  · rintro ⟨i, hilt, rfl⟩
    omega
  · intro h
    refine ⟨(x - lo).toNat, by omega, by omega⟩

theorem intRange_nodup (lo hi : ℤ) : (intRange lo hi).Nodup := by
  unfold intRange
  refine List.Nodup.map ?_ (List.nodup_range _)
  intro a b hab
  dsimp only at hab
  omega

theorem candList_mem {R : ℤ} {c : ℤ × ℤ} :
    c ∈ candList R ↔ -R ≤ c.1 ∧ c.1 ≤ R ∧ -R ≤ c.2 ∧ c.2 ≤ R := by
  unfold candList
  simp only [List.mem_flatMap, List.mem_map]
  constructor
  · rintro ⟨dy, hdy, dx, hdx, rfl⟩
    rw [intRange_mem] at hdy hdx
    dsimp only
    omega
  · intro h
    exact ⟨c.2, intRange_mem.mpr (by omega), c.1, intRange_mem.mpr (by omega), rfl⟩

theorem candList_nodup (R : ℤ) : (candList R).Nodup := by
  unfold candList
  rw [List.nodup_flatMap]
  refine ⟨fun dy _ => ?_, ?_⟩
  · refine List.Nodup.map ?_ (intRange_nodup _ _)
    intro a b hab
    exact congrArg Prod.fst hab
  · refine List.Pairwise.imp ?_ (intRange_nodup (-R) (R + 1))
    intro a b hab
    simp only [Function.onFun, List.Disjoint, List.mem_map]
    rintro x ⟨dx1, _, rfl⟩ ⟨dx2, _, hx⟩
    exact hab (congrArg Prod.snd hx).symm

theorem candList_zero_mem {R : ℤ} (hR : 0 ≤ R) : ((0 : ℤ), (0 : ℤ)) ∈ candList R := by
  rw [candList_mem]
  omega

/-! ### Properties of the strict-improvement search loop -/

noncomputable instance (u : Bool) (x y : ℝ) : Decidable (beats u x y) := by
  unfold beats
  cases u
  · simpa using inferInstanceAs (Decidable (x < y))
  · simpa using inferInstanceAs (Decidable (y < x))

theorem beats_irrefl (u : Bool) (x : ℝ) : ¬ beats u x x := by
  cases u <;> simp [beats]

theorem beats_asymm {u : Bool} {x y : ℝ} (h : beats u x y) : ¬ beats u y x := by
  cases u <;> simp [beats] at h ⊢ <;> linarith

theorem beats_trans {u : Bool} {x y z : ℝ} (h1 : beats u y x) (h2 : beats u z y) :
    beats u z x := by
  cases u <;> simp [beats] at h1 h2 ⊢ <;> linarith

theorem beats_trans_not {u : Bool} {x y z : ℝ} (h1 : ¬ beats u x y) (h2 : beats u z y) :
    beats u z x := by
  cases u <;> simp [beats] at h1 h2 ⊢ <;> linarith

theorem stepBest_some (u : Bool) (f : ℤ × ℤ → ℝ) (d c : ℤ × ℤ) :
    stepBest u f (d.1, d.2, some (f d)) c =
      if beats u (f c) (f d) then (c.1, c.2, some (f c)) else (d.1, d.2, some (f d)) := by
  cases u
  · by_cases h : f c < f d <;> simp [stepBest, beats, h]
  · by_cases h : f d < f c <;> simp [stepBest, beats, h]

theorem foldBest_split (u : Bool) (f : ℤ × ℤ → ℝ) :
    ∀ (l : List (ℤ × ℤ)) (d : ℤ × ℤ),
      ∃ (r : ℤ × ℤ) (l1 l2 : List (ℤ × ℤ)),
        l.foldl (stepBest u f) (d.1, d.2, some (f d)) = (r.1, r.2, some (f r)) ∧
        d :: l = l1 ++ r :: l2 ∧
        (∀ c ∈ l1, beats u (f r) (f c)) ∧
        (∀ c ∈ l2, ¬ beats u (f c) (f r)) := by
  intro l
  induction l with
  | nil =>
    intro d
    exact ⟨d, [], [], rfl, rfl, by simp, by simp⟩
  | cons c t ih =>
    intro d
    rw [List.foldl_cons, stepBest_some]
    by_cases hb : beats u (f c) (f d)
    · rw [if_pos hb]
      obtain ⟨r, l1, l2, hfold, hsplit, h1, h2⟩ := ih c
      refine ⟨r, d :: l1, l2, hfold, by rw [List.cons_append, ← hsplit], ?_, h2⟩
      intro x hx
      rcases List.mem_cons.mp hx with hxd | hx1
      · subst hxd
        have hrc : beats u (f r) (f c) ∨ r = c := by
          rcases l1 with _ | ⟨a, l1t⟩
          · right
            simpa using (List.cons.injEq _ _ _ _ ▸ hsplit).1.symm
          · left
            have hac : a = c := by
              simpa using congrArg (fun s => List.headD s ((0 : ℤ), (0 : ℤ))) hsplit.symm
            exact hac ▸ h1 a (List.mem_cons_self a l1t)
        rcases hrc with hrc | hrc
        · exact beats_trans hb hrc
        · rw [hrc]; exact hb
      · exact h1 x hx1
    · rw [if_neg hb]
      obtain ⟨r, l1, l2, hfold, hsplit, h1, h2⟩ := ih d
      rcases l1 with _ | ⟨a, l1t⟩
      · have hrd : d = r ∧ t = l2 := by simpa using hsplit
        refine ⟨r, [], c :: l2, hfold, by simp [hrd.1, hrd.2], by simp, ?_⟩
        intro x hx
        rcases List.mem_cons.mp hx with hxc | hx2
        · subst hxc
          rw [← hrd.1]
          exact hb
        · exact h2 x hx2
      · have had : d = a ∧ t = l1t ++ r :: l2 := by simpa using hsplit
        refine ⟨r, d :: c :: l1t, l2, hfold, by simp [had.2], ?_, h2⟩
        have hrd : beats u (f r) (f d) := by
          rw [had.1]
          exact h1 a (List.mem_cons_self a l1t)
        intro x hx
        rcases List.mem_cons.mp hx with hxd | hx1
        · subst hxd; exact hrd
        · rcases List.mem_cons.mp hx1 with hxc | hx1t
          · subst hxc; exact beats_trans_not hb hrd
          · exact h1 x (List.mem_cons_of_mem a hx1t)

theorem bestShift_split (ref_l est : Grid) (R : ℤ) (u : Bool) (ec : ℚ)
    (hne : candList R ≠ []) :
    ∃ (r : ℤ × ℤ) (l1 l2 : List (ℤ × ℤ)),
      bestShift ref_l est R u ec = (r.1, r.2, some (cand_score ref_l est ec u r)) ∧
      candList R = l1 ++ r :: l2 ∧
      (∀ c ∈ l1, beats u (cand_score ref_l est ec u r) (cand_score ref_l est ec u c)) ∧
      (∀ c ∈ l2, ¬ beats u (cand_score ref_l est ec u c) (cand_score ref_l est ec u r)) := by
  obtain ⟨c0, t, h0⟩ : ∃ c0 t, candList R = c0 :: t := by
    cases hl : candList R with
    | nil => exact absurd hl hne
    | cons a b => exact ⟨a, b, rfl⟩
  unfold bestShift
  rw [h0, List.foldl_cons]
  have hstep : stepBest u (cand_score ref_l est ec u) ((0 : ℤ), (0 : ℤ), none) c0
      = (c0.1, c0.2, some (cand_score ref_l est ec u c0)) := rfl
  rw [hstep]
  obtain ⟨r, l1, l2, hfold, hsplit, h1, h2⟩ :=
    foldBest_split u (cand_score ref_l est ec u) t c0
  exact ⟨r, l1, l2, hfold, hsplit, h1, h2⟩

theorem bestShift_opt (ref_l est : Grid) (R : ℤ) (u : Bool) (ec : ℚ)
    (c : ℤ × ℤ) (hc : c ∈ candList R) :
    ¬ beats u (cand_score ref_l est ec u c)
        (cand_score ref_l est ec u (alignD (bestShift ref_l est R u ec))) := by
  obtain ⟨r, l1, l2, hfold, hsplit, h1, h2⟩ :=
    bestShift_split ref_l est R u ec (List.ne_nil_of_mem hc)
  have hr : alignD (bestShift ref_l est R u ec) = r := by rw [hfold]; rfl
  rw [hr]
  rw [hsplit] at hc
  rcases List.mem_append.mp hc with h | h
  · exact beats_asymm (h1 c h)
  · rcases List.mem_cons.mp h with h | h
    · subst h
      exact beats_irrefl u _
    · exact h2 c h

theorem bestShift_mem (ref_l est : Grid) (R : ℤ) (u : Bool) (ec : ℚ)
    (hne : candList R ≠ []) :
    alignD (bestShift ref_l est R u ec) ∈ candList R := by
  obtain ⟨r, l1, l2, hfold, hsplit, _, _⟩ := bestShift_split ref_l est R u ec hne
  have hr : alignD (bestShift ref_l est R u ec) = r := by rw [hfold]; rfl
  rw [hr, hsplit]
  exact List.mem_append_right _ (List.mem_cons_self _ _)

theorem bestShift_unique (ref_l est : Grid) (R : ℤ) (u : Bool) (ec : ℚ)
    (cstar : ℤ × ℤ) (hc : cstar ∈ candList R)
    (hstrict : ∀ c ∈ candList R, c ≠ cstar →
      beats u (cand_score ref_l est ec u cstar) (cand_score ref_l est ec u c)) :
    alignD (bestShift ref_l est R u ec) = cstar := by
  obtain ⟨r, l1, l2, hfold, hsplit, h1, h2⟩ :=
    bestShift_split ref_l est R u ec (List.ne_nil_of_mem hc)
  have hr : alignD (bestShift ref_l est R u ec) = r := by rw [hfold]; rfl
  rw [hr]
  by_contra hne2
  have hrmem : r ∈ candList R := by
    rw [hsplit]
    exact List.mem_append_right _ (List.mem_cons_self _ _)
  have hb := hstrict r hrmem hne2
  rw [hsplit] at hc
  rcases List.mem_append.mp hc with h | h
  · exact beats_asymm (h1 cstar h) hb
  · rcases List.mem_cons.mp h with h | h
    · exact hne2 h.symm
    · exact (h2 cstar h) hb

theorem bestShift_first (ref_l est : Grid) (R : ℤ) (u : Bool) (ec : ℚ)
    (c0 : ℤ × ℤ) (t : List (ℤ × ℤ)) (hl : candList R = c0 :: t)
    (hopt : ∀ c ∈ candList R,
      ¬ beats u (cand_score ref_l est ec u c) (cand_score ref_l est ec u c0)) :
    alignD (bestShift ref_l est R u ec) = c0 := by
  have hne : candList R ≠ [] := by rw [hl]; exact List.cons_ne_nil c0 t
  obtain ⟨r, l1, l2, hfold, hsplit, h1, h2⟩ := bestShift_split ref_l est R u ec hne
  have hr : alignD (bestShift ref_l est R u ec) = r := by rw [hfold]; rfl
  rw [hr]
  rcases l1 with _ | ⟨a, l1t⟩
  · rw [hl] at hsplit
    have : c0 = r ∧ t = l2 := by simpa using hsplit
    exact this.1.symm
  · rw [hl] at hsplit
    have hac : c0 = a ∧ t = l1t ++ r :: l2 := by simpa using hsplit
    exfalso
    have hrmem : r ∈ candList R := by
      rw [hl, hac.2]
      exact List.mem_cons_of_mem _ (List.mem_append_right _ (List.mem_cons_self _ _))
    refine hopt r hrmem ?_
    rw [hac.1]
    exact h1 a (List.mem_cons_self a l1t)

theorem nodup_split_eq {α : Type} (a : α) :
    ∀ (l1 l2 m1 m2 : List α),
      (l1 ++ a :: l2).Nodup → l1 ++ a :: l2 = m1 ++ a :: m2 → l1 = m1 ∧ l2 = m2 := by
  intro l1
  induction l1 with
  | nil =>
    intro l2 m1 m2 hnd heq
    cases m1 with
    | nil =>
      simp only [List.nil_append] at heq
      exact ⟨rfl, by simpa using heq⟩
    | cons b m1t =>
      exfalso
      simp only [List.nil_append, List.cons_append, List.cons.injEq] at heq
      obtain ⟨hab, hl2⟩ := heq
      have hmem : a ∈ l2 := by
        rw [hl2]
        exact List.mem_append_right _ (List.mem_cons_self _ _)
      rw [List.nil_append] at hnd
      exact (List.nodup_cons.mp hnd).1 hmem
  | cons x l1t ih =>
    intro l2 m1 m2 hnd heq
    rw [List.cons_append] at hnd
    have hnd2 := List.nodup_cons.mp hnd
    cases m1 with
    | nil =>
      exfalso
      simp only [List.cons_append, List.nil_append, List.cons.injEq] at heq
      obtain ⟨hxa, hrest⟩ := heq
      subst hxa
      exact hnd2.1 (List.mem_append_right _ (List.mem_cons_self _ _))
    | cons y m1t =>
      simp only [List.cons_append, List.cons.injEq] at heq
      obtain ⟨hxy, hrest⟩ := heq
      obtain ⟨h1, h2⟩ := ih l2 m1t m2 hnd2.2 hrest
      exact ⟨by rw [hxy, h1], h2⟩

theorem bestShift_ne_tied (ref_l est : Grid) (R : ℤ) (u : Bool) (ec : ℚ)
    (c1 c2 : ℤ × ℤ) (A B C : List (ℤ × ℤ))
    (hsplit : candList R = A ++ c1 :: B ++ c2 :: C) (hne12 : c1 ≠ c2)
    (heq : cand_score ref_l est ec u c1 = cand_score ref_l est ec u c2) :
    alignD (bestShift ref_l est R u ec) ≠ c2 := by
  intro hr2
  have hc1mem : c1 ∈ candList R := by
    rw [hsplit]
    exact List.mem_append_left _ (List.mem_append_right _ (List.mem_cons_self _ _))
  obtain ⟨r, l1, l2, hfold, hsplitr, h1, h2⟩ :=
    bestShift_split ref_l est R u ec (List.ne_nil_of_mem hc1mem)
  have hr : alignD (bestShift ref_l est R u ec) = r := by rw [hfold]; rfl
  rw [hr] at hr2
  rw [hr2] at hsplitr h1
  have hnd : (l1 ++ c2 :: l2).Nodup := by
    rw [← hsplitr]
    exact candList_nodup R
  have heq2 : l1 ++ c2 :: l2 = (A ++ c1 :: B) ++ c2 :: C := by
    rw [← hsplitr, hsplit]
  obtain ⟨hL, _⟩ := nodup_split_eq c2 l1 l2 (A ++ c1 :: B) C hnd heq2
  have hc1 : c1 ∈ l1 := by
    rw [hL]
    exact List.mem_append_right _ (List.mem_cons_self _ _)
  have hbt := h1 c1 hc1
  rw [← heq] at hbt
  exact beats_irrefl u _ hbt

/-! ### Exact-value bridges for the two metrics -/

theorem ssd_metric_eq_cast (a b : Grid) : ssd_metric a b = ((ssdQ a b : ℚ) : ℝ) := by
  unfold ssd_metric ssdQ
  rw [Rat.cast_list_sum, List.map_map]
  refine congrArg List.sum (List.map_congr_left fun p _ => ?_)
  simp only [Function.comp_apply]
  push_cast
  ring

theorem cand_score_ssd (ref_l est : Grid) (ec : ℚ) (c : ℤ × ℤ) :
    cand_score ref_l est ec false c = ((cand_score_q ref_l est ec c : ℚ) : ℝ) := by
  unfold cand_score cand_score_q
  simp only [Bool.false_eq_true, if_false]
  exact ssd_metric_eq_cast _ _

theorem ncc_metric_eq (a b : Grid) :
    ncc_metric a b = ((nccNum a b : ℚ) : ℝ) /
      ((grid_std a + (epsQ : ℝ)) * (grid_std b + (epsQ : ℝ))) := by
  unfold ncc_metric nccNum
  rw [Rat.cast_list_sum, List.map_map, div_eq_mul_inv, ← List.sum_map_mul_right]
  refine congrArg List.sum (List.map_congr_left fun p _ => ?_)
  rw [div_mul_div_comm, div_eq_mul_inv]
  simp only [Function.comp_apply]
  push_cast
  ring

theorem grid_std_eps_pos (g : Grid) : 0 < grid_std g + (epsQ : ℝ) := by
  have h1 : 0 ≤ grid_std g := Real.sqrt_nonneg _
  have h2 : (0 : ℝ) < (epsQ : ℝ) := by
    unfold epsQ
    norm_num
  linarith

theorem ncc_lt_of_nccNum_lt (a b1 b2 : Grid) (hv : gridVar b1 = gridVar b2)
    (h : nccNum a b1 < nccNum a b2) : ncc_metric a b1 < ncc_metric a b2 := by
  rw [ncc_metric_eq, ncc_metric_eq]
  have hstd : grid_std b1 = grid_std b2 := by unfold grid_std; rw [hv]
  rw [hstd]
  exact (div_lt_div_right
    (mul_pos (grid_std_eps_pos a) (grid_std_eps_pos b2))).mpr (by exact_mod_cast h)

theorem ssd_list_self (l : List ℚ) :
    ((l.zip l).map (fun p => (p.1 - p.2) * (p.1 - p.2))).sum = 0 := by
  induction l with
  | nil => rfl
  | cons x t ih => simpa using ih

theorem ssdQ_self (a : Grid) : ssdQ a a = 0 := ssd_list_self (flatG a)

theorem ssd_list_nonneg (l : List (ℚ × ℚ)) :
    0 ≤ (l.map (fun p => (p.1 - p.2) * (p.1 - p.2))).sum := by
  apply List.sum_nonneg
  intro x hx
  simp only [List.mem_map] at hx
  obtain ⟨p, _, rfl⟩ := hx
  exact mul_self_nonneg _

theorem ssdQ_nonneg (a b : Grid) : 0 ≤ ssdQ a b := ssd_list_nonneg _

theorem ssd_list_pos (l1 : List ℚ) :
    ∀ (l2 : List ℚ), l1.length = l2.length → l1 ≠ l2 →
      0 < ((l1.zip l2).map (fun p => (p.1 - p.2) * (p.1 - p.2))).sum := by
  induction l1 with
  | nil =>
    intro l2 hlen hne
    cases l2 with
    | nil => exact absurd rfl hne
    | cons y t => simp at hlen
  | cons x t1 ih =>
    intro l2 hlen hne
    cases l2 with
    | nil => simp at hlen
    | cons y t2 =>
      simp only [List.zip_cons_cons, List.map_cons, List.sum_cons]
      by_cases hxy : x = y
      · subst hxy
        have hne2 : t1 ≠ t2 := fun h => hne (by rw [h])
        have hpos := ih t2 (by simpa using hlen) hne2
        simp only [sub_self, mul_zero, zero_mul, zero_add]
        exact hpos
      · have h1 : 0 < (x - y) * (x - y) := mul_self_pos.mpr (sub_ne_zero.mpr hxy)
        have h2 := ssd_list_nonneg (t1.zip t2)
        linarith

theorem ssdQ_pos (a b : Grid) (hlen : (flatG a).length = (flatG b).length)
    (hne : flatG a ≠ flatG b) : 0 < ssdQ a b :=
  ssd_list_pos (flatG a) (flatG b) hlen hne

/-! ### Direction helpers for the beats relation and metric selection -/

theorem not_beats_true {x y : ℝ} (h : ¬ beats true x y) : x ≤ y := by
  simp only [beats, if_true] at h
  exact not_lt.mp h

theorem not_beats_false {x y : ℝ} (h : ¬ beats false x y) : y ≤ x := by
  simp only [beats, if_false] at h
  exact not_lt.mp h

theorem pyLower_ncc : (pyLower "ncc" == "ncc") = true := by decide

theorem pyLower_ssd : (pyLower "ssd" == "ncc") = false := by decide

/-! ### Claim theorems -/

/-- C1: for equally-shaped grids, any radius R >= 0, metric in {ssd, ncc}
and any edge-crop fraction, the displacement returned by align_bruteforce
is globally optimal over the whole candidate square: its score is >= every
candidate score under NCC and <= every candidate score under SSD. -/
theorem align_bruteforce_optimal (reference target : Grid) (R : ℤ)
    (metric : String) (ec : ℚ)
    (hshape : gridShape reference = gridShape target) (hR : 0 ≤ R)
    (hm : metric = "ssd" ∨ metric = "ncc")
    (c : ℤ × ℤ) (hc : -R ≤ c.1 ∧ c.1 ≤ R ∧ -R ≤ c.2 ∧ c.2 ≤ R) :
    (metric = "ncc" →
      align_score reference target metric ec c ≤
        align_score reference target metric ec
          (alignD (align_bruteforce reference target R metric ec))) ∧
    (metric = "ssd" →
      align_score reference target metric ec
          (alignD (align_bruteforce reference target R metric ec)) ≤
        align_score reference target metric ec c) := by
  have hcm : c ∈ candList R := candList_mem.mpr hc
  constructor
  · intro hm2
    subst hm2
    unfold align_score align_bruteforce
    rw [pyLower_ncc]
    exact not_beats_true (bestShift_opt reference target R true ec c hcm)
  · intro hm2
    subst hm2
    unfold align_score align_bruteforce
    rw [pyLower_ssd]
    exact not_beats_false (bestShift_opt reference target R false ec c hcm)

/-- Witness for C1 at a concrete 2x2 grid, radius 0, metric ssd,
candidate (0, 0). -/
theorem align_bruteforce_optimal_witness :
    (gridShape [[(0 : ℚ), 1], [2, 3]] = gridShape [[(0 : ℚ), 1], [2, 3]] ∧
     (0 : ℤ) ≤ 0 ∧
     (("ssd" : String) = "ssd" ∨ ("ssd" : String) = "ncc") ∧
     (-(0 : ℤ) ≤ ((0 : ℤ), (0 : ℤ)).1 ∧ ((0 : ℤ), (0 : ℤ)).1 ≤ 0 ∧
      -(0 : ℤ) ≤ ((0 : ℤ), (0 : ℤ)).2 ∧ ((0 : ℤ), (0 : ℤ)).2 ≤ 0)) ∧
    ((("ssd" : String) = "ncc" →
      align_score [[(0 : ℚ), 1], [2, 3]] [[(0 : ℚ), 1], [2, 3]] "ssd" (1/10) ((0 : ℤ), (0 : ℤ)) ≤
        align_score [[(0 : ℚ), 1], [2, 3]] [[(0 : ℚ), 1], [2, 3]] "ssd" (1/10)
          (alignD (align_bruteforce [[(0 : ℚ), 1], [2, 3]] [[(0 : ℚ), 1], [2, 3]] 0 "ssd" (1/10)))) ∧
     (("ssd" : String) = "ssd" →
      align_score [[(0 : ℚ), 1], [2, 3]] [[(0 : ℚ), 1], [2, 3]] "ssd" (1/10)
          (alignD (align_bruteforce [[(0 : ℚ), 1], [2, 3]] [[(0 : ℚ), 1], [2, 3]] 0 "ssd" (1/10))) ≤
        align_score [[(0 : ℚ), 1], [2, 3]] [[(0 : ℚ), 1], [2, 3]] "ssd" (1/10) ((0 : ℤ), (0 : ℤ)))) :=
  ⟨⟨rfl, le_refl 0, Or.inl rfl, by norm_num⟩,
   align_bruteforce_optimal [[(0 : ℚ), 1], [2, 3]] [[(0 : ℚ), 1], [2, 3]] 0 "ssd" (1/10)
     rfl (le_refl 0) (Or.inl rfl) ((0 : ℤ), (0 : ℤ)) (by norm_num)⟩

/-- C4 counterexample: with L = 2 levels, base_search = 4 and
refine_search = 2, the radius pyramid_align uses at the coarsest level
(index L - 1 = 1) is refine_search = 2, not base_search = 4 as claimed. -/
theorem pyramid_radius_counterexample :
    pyramid_level_radius 4 2 (2 - 1) = 2 ∧ pyramid_level_radius 4 2 (2 - 1) ≠ 4 := by
  constructor <;> decide

/-- C4 amended: pyramid_align uses base_search at the finest level
(index 0) and refine_search at every non-zero level, hence at the coarsest
level L - 1 whenever L >= 2. -/
theorem pyramid_radius_amended (base_search refine_search : ℤ) (L : ℕ) (hL : 2 ≤ L) :
    pyramid_level_radius base_search refine_search 0 = base_search ∧
    (∀ lvl : ℕ, 1 ≤ lvl → pyramid_level_radius base_search refine_search lvl = refine_search) ∧
    pyramid_level_radius base_search refine_search (L - 1) = refine_search := by
  refine ⟨rfl, ?_, ?_⟩
  · intro lvl hlvl
    unfold pyramid_level_radius
    rw [if_neg (by omega)]
  · unfold pyramid_level_radius
    rw [if_neg (by omega)]

/-- Witness for C4's amended statement at base_search = 4,
refine_search = 2, L = 2. -/
theorem pyramid_radius_amended_witness :
    2 ≤ 2 ∧
    (pyramid_level_radius 4 2 0 = 4 ∧
     (∀ lvl : ℕ, 1 ≤ lvl → pyramid_level_radius 4 2 lvl = 2) ∧
     pyramid_level_radius 4 2 (2 - 1) = 2) :=
  ⟨le_refl 2, pyramid_radius_amended 4 2 2 (le_refl 2)⟩

/-- C5 counterexample: at dimension 14 and edge-crop fraction 1/8 (both
exactly representable in binary floating point, 14 * 0.125 = 1.75) the
code margin is 1 (truncation) while the spec's round-then-clamp formula
gives 2. -/
theorem crop_margin_round_counterexample :
    crop_margin 14 (1/8) = 1 ∧ margin_spec_round 14 (1/8) = 2 ∧
    crop_margin 14 (1/8) ≠ margin_spec_round 14 (1/8) := by
  have h1 : crop_margin 14 (1/8) = 1 := by
    norm_num [crop_margin, pyInt]
  have h2 : margin_spec_round 14 (1/8) = 2 := by
    norm_num [margin_spec_round, round_eq]
  refine ⟨h1, h2, ?_⟩
  rw [h1, h2]
  decide

/-- C5 amended: the margin is clamp(trunc(d * edge_crop), 0, d / 4), with
the product truncated toward zero (the floor, for the nonnegative
fractions at issue), not rounded to nearest. -/
theorem crop_margin_trunc (d : ℕ) (ec : ℚ) (hec : 0 ≤ ec) :
    crop_margin (d : ℤ) ec = min (max 0 (Int.floor (((d : ℤ) : ℚ) * ec))) ((d : ℤ) / 4) := by
  unfold crop_margin pyInt
  rw [if_neg (not_lt.mpr (mul_nonneg (by positivity) hec))]

/-- Witness for C5's amended statement at d = 14, edge-crop 1/8. -/
theorem crop_margin_trunc_witness :
    (0 : ℚ) ≤ 1/8 ∧
    crop_margin ((14 : ℕ) : ℤ) (1/8) =
      min (max 0 (Int.floor ((((14 : ℕ) : ℤ) : ℚ) * (1/8)))) (((14 : ℕ) : ℤ) / 4) :=
  ⟨by norm_num, crop_margin_trunc 14 (1/8) (by norm_num)⟩

/-- C8: for every pair of grid dimensions and every edge-crop fraction
edge_crop >= 0 (including values >= 0.25) the margins satisfy
0 <= ch <= h / 4 and 0 <= cw <= w / 4: the crop never removes more than a
quarter of either axis. -/
theorem crop_margin_bounds (h w : ℕ) (ec : ℚ) (hec : 0 ≤ ec) :
    (0 ≤ crop_margin (h : ℤ) ec ∧ crop_margin (h : ℤ) ec ≤ (h : ℤ) / 4) ∧
    (0 ≤ crop_margin (w : ℤ) ec ∧ crop_margin (w : ℤ) ec ≤ (w : ℤ) / 4) := by
  have key : ∀ d : ℕ, 0 ≤ crop_margin (d : ℤ) ec ∧ crop_margin (d : ℤ) ec ≤ (d : ℤ) / 4 := by
    intro d
    unfold crop_margin
    refine ⟨le_min (le_max_left _ _) ?_, min_le_right _ _⟩
    exact Int.ediv_nonneg (by positivity) (by norm_num)
  exact ⟨key h, key w⟩

/-- Witness for C8 at h = 10, w = 7, edge-crop 1/2 (a value above 1/4). -/
theorem crop_margin_bounds_witness :
    (0 : ℚ) ≤ 1/2 ∧
    ((0 ≤ crop_margin ((10 : ℕ) : ℤ) (1/2) ∧ crop_margin ((10 : ℕ) : ℤ) (1/2) ≤ ((10 : ℕ) : ℤ) / 4) ∧
     (0 ≤ crop_margin ((7 : ℕ) : ℤ) (1/2) ∧ crop_margin ((7 : ℕ) : ℤ) (1/2) ≤ ((7 : ℕ) : ℤ) / 4)) :=
  ⟨by norm_num, crop_margin_bounds 10 7 (1/2) (by norm_num)⟩

/-- C9: the metric values are given by finite exact formulas and the NCC
divisor std + 1e-8 is strictly positive for every grid, including a
constant zero-variance grid, so the z-score divisions are always well
defined and no error branch exists. -/
theorem metric_finite_eps_guard (a b : Grid) :
    0 < grid_std a + (epsQ : ℝ) ∧ 0 < grid_std b + (epsQ : ℝ) ∧
    ssd_metric a b = ((ssdQ a b : ℚ) : ℝ) ∧
    ncc_metric a b = ((nccNum a b : ℚ) : ℝ) /
      ((grid_std a + (epsQ : ℝ)) * (grid_std b + (epsQ : ℝ))) :=
  ⟨grid_std_eps_pos a, grid_std_eps_pos b, ssd_metric_eq_cast a b, ncc_metric_eq a b⟩

/-- C10: a metric string whose lowercase form is not "ncc" is scored
exactly as SSD by align_bruteforce and by pyramid_align; the search engine
performs no metric-name validation and raises no error. -/
theorem unknown_metric_is_ssd (s : String) (hs : pyLower s ≠ "ncc")
    (reference target : Grid) (R : ℤ) (ec : ℚ) (levels : ℕ) (bs rs : ℤ) :
    align_bruteforce reference target R s ec =
      align_bruteforce reference target R "ssd" ec ∧
    pyramid_align reference target levels bs rs s ec =
      pyramid_align reference target levels bs rs "ssd" ec := by
  have h1 : (pyLower s == "ncc") = false := by
    rw [beq_eq_false_iff_ne]
    exact hs
  constructor
  · unfold align_bruteforce
    rw [h1, pyLower_ssd]
  · unfold pyramid_align
    rw [h1, pyLower_ssd]

/-- Witness for C10 with the unknown metric name "abc". -/
theorem unknown_metric_is_ssd_witness :
    pyLower "abc" ≠ "ncc" ∧
    (align_bruteforce [[(0 : ℚ), 1], [2, 3]] [[(3 : ℚ), 1], [0, 2]] 1 "abc" (1/10) =
       align_bruteforce [[(0 : ℚ), 1], [2, 3]] [[(3 : ℚ), 1], [0, 2]] 1 "ssd" (1/10) ∧
     pyramid_align [[(0 : ℚ), 1], [2, 3]] [[(3 : ℚ), 1], [0, 2]] 2 4 2 "abc" (1/10) =
       pyramid_align [[(0 : ℚ), 1], [2, 3]] [[(3 : ℚ), 1], [0, 2]] 2 4 2 "ssd" (1/10)) :=
  ⟨by decide,
   unknown_metric_is_ssd "abc" (by decide) [[(0 : ℚ), 1], [2, 3]] [[(3 : ℚ), 1], [0, 2]]
     1 (1/10) 2 4 2⟩

/-! ### Concrete recoverability scenario (C2) -/

/-- Non-periodic 3x3 test grid for the recoverability scenario. -/
def gridG3 : Grid := [[0, 0, 0], [0, 1, 0], [0, 0, 0]]

/-- gridG3 circularly shifted by (sdx, sdy) = (+1, 0) via apply_alignment. -/
def gridT3 : Grid := apply_alignment gridG3 1 0

theorem cropWin_zero (ref_l g : Grid) (ec : ℚ)
    (hch : crop_margin (gridH ref_l) ec = 0) (hcw : crop_margin (gridW ref_l) ec = 0)
    (hg : g.length ≤ (gridH ref_l).toNat)
    (hrow : ∀ r ∈ g, r.length ≤ (gridW ref_l).toNat) :
    cropWin ref_l g ec = g := by
  unfold cropWin crop2
  rw [hch, hcw]
  simp only [Int.toNat_zero, List.drop_zero, sub_zero]
  rw [List.take_of_length_le hg]
  calc List.map (fun row => List.take (gridW ref_l).toNat row) g
      = List.map id g := List.map_congr_left fun r hr => List.take_of_length_le (hrow r hr)
    _ = g := List.map_id g

theorem beats_true_intro {x y : ℝ} (h : y < x) : beats true x y := by
  simp only [beats, if_true]
  exact h

theorem c2_core :
    alignD (align_bruteforce gridG3 gridT3 1 "ncc" (1/10)) = ((-1 : ℤ), (0 : ℤ)) := by
  have halign : align_bruteforce gridG3 gridT3 1 "ncc" (1/10) =
      bestShift gridG3 gridT3 1 true (1/10) := by
    unfold align_bruteforce
    rw [pyLower_ncc]
  rw [halign]
  have hcrop : ∀ B : Grid, B.length = 3 → (∀ r ∈ B, r.length = 3) →
      cropWin gridG3 B (1/10) = B := by
    intro B h1 h2
    refine cropWin_zero gridG3 B (1/10) ?_ ?_ ?_ ?_
    · norm_num [crop_margin, pyInt, gridH, gridG3]
    · norm_num [crop_margin, pyInt, gridW, gridG3]
    · rw [h1]
      decide
    · intro r hr
      rw [h2 r hr]
      decide
  have hG : cropWin gridG3 gridG3 (1/10) = gridG3 := hcrop gridG3 (by decide) (by decide)
  have hscore : ∀ dx dy : ℤ, cand_score gridG3 gridT3 (1/10) true (dx, dy) =
      ncc_metric gridG3 (cropWin gridG3 (roll2 gridT3 dy dx) (1/10)) := by
    intro dx dy
    unfold cand_score
    rw [if_pos rfl, hG]
  have hstar : cand_score gridG3 gridT3 (1/10) true ((-1 : ℤ), (0 : ℤ)) =
      ncc_metric gridG3 gridG3 := by
    rw [hscore (-1 : ℤ) (0 : ℤ),
      show roll2 gridT3 (0 : ℤ) (-1 : ℤ) = gridG3 from by decide, hG]
  apply bestShift_unique
  · decide
  intro c hc hne
  have hl : candList 1 = [((-1 : ℤ), (-1 : ℤ)), (0, -1), (1, -1), (-1, 0), (0, 0),
      (1, 0), (-1, 1), (0, 1), (1, 1)] := by decide
  rw [hl] at hc
  simp only [List.mem_cons, List.not_mem_nil, or_false] at hc
  rcases hc with rfl | rfl | rfl | rfl | rfl | rfl | rfl | rfl | rfl
  · refine beats_true_intro ?_
    rw [hstar, hscore (-1 : ℤ) (-1 : ℤ),
      show roll2 gridT3 (-1 : ℤ) (-1 : ℤ) = ([[(0 : ℚ), 1, 0], [0, 0, 0], [0, 0, 0]] : Grid) from by decide,
      hcrop _ (by decide) (by decide)]
    exact ncc_lt_of_nccNum_lt gridG3 _ gridG3
      (by norm_num [gridVar, gridMean, flatG, gridG3])
      (by norm_num [nccNum, gridMean, flatG, gridG3])
  · refine beats_true_intro ?_
    rw [hstar, hscore (0 : ℤ) (-1 : ℤ),
      show roll2 gridT3 (-1 : ℤ) (0 : ℤ) = ([[(0 : ℚ), 0, 1], [0, 0, 0], [0, 0, 0]] : Grid) from by decide,
      hcrop _ (by decide) (by decide)]
    exact ncc_lt_of_nccNum_lt gridG3 _ gridG3
      (by norm_num [gridVar, gridMean, flatG, gridG3])
      (by norm_num [nccNum, gridMean, flatG, gridG3])
  · refine beats_true_intro ?_
    rw [hstar, hscore (1 : ℤ) (-1 : ℤ),
      show roll2 gridT3 (-1 : ℤ) (1 : ℤ) = ([[(1 : ℚ), 0, 0], [0, 0, 0], [0, 0, 0]] : Grid) from by decide,
      hcrop _ (by decide) (by decide)]
    exact ncc_lt_of_nccNum_lt gridG3 _ gridG3
      (by norm_num [gridVar, gridMean, flatG, gridG3])
      (by norm_num [nccNum, gridMean, flatG, gridG3])
  · exact absurd rfl hne
  · refine beats_true_intro ?_
    rw [hstar, hscore (0 : ℤ) (0 : ℤ),
      show roll2 gridT3 (0 : ℤ) (0 : ℤ) = ([[(0 : ℚ), 0, 0], [0, 0, 1], [0, 0, 0]] : Grid) from by decide,
      hcrop _ (by decide) (by decide)]
    exact ncc_lt_of_nccNum_lt gridG3 _ gridG3
      (by norm_num [gridVar, gridMean, flatG, gridG3])
      (by norm_num [nccNum, gridMean, flatG, gridG3])
  · refine beats_true_intro ?_
    rw [hstar, hscore (1 : ℤ) (0 : ℤ),
      show roll2 gridT3 (0 : ℤ) (1 : ℤ) = ([[(0 : ℚ), 0, 0], [1, 0, 0], [0, 0, 0]] : Grid) from by decide,
      hcrop _ (by decide) (by decide)]
    exact ncc_lt_of_nccNum_lt gridG3 _ gridG3
      (by norm_num [gridVar, gridMean, flatG, gridG3])
      (by norm_num [nccNum, gridMean, flatG, gridG3])
  · refine beats_true_intro ?_
    rw [hstar, hscore (-1 : ℤ) (1 : ℤ),
      show roll2 gridT3 (1 : ℤ) (-1 : ℤ) = ([[(0 : ℚ), 0, 0], [0, 0, 0], [0, 1, 0]] : Grid) from by decide,
      hcrop _ (by decide) (by decide)]
    exact ncc_lt_of_nccNum_lt gridG3 _ gridG3
      (by norm_num [gridVar, gridMean, flatG, gridG3])
      (by norm_num [nccNum, gridMean, flatG, gridG3])
  · refine beats_true_intro ?_
    rw [hstar, hscore (0 : ℤ) (1 : ℤ),
      show roll2 gridT3 (1 : ℤ) (0 : ℤ) = ([[(0 : ℚ), 0, 0], [0, 0, 0], [0, 0, 1]] : Grid) from by decide,
      hcrop _ (by decide) (by decide)]
    exact ncc_lt_of_nccNum_lt gridG3 _ gridG3
      (by norm_num [gridVar, gridMean, flatG, gridG3])
      (by norm_num [nccNum, gridMean, flatG, gridG3])
  · refine beats_true_intro ?_
    rw [hstar, hscore (1 : ℤ) (1 : ℤ),
      show roll2 gridT3 (1 : ℤ) (1 : ℤ) = ([[(0 : ℚ), 0, 0], [0, 0, 0], [1, 0, 0]] : Grid) from by decide,
      hcrop _ (by decide) (by decide)]
    exact ncc_lt_of_nccNum_lt gridG3 _ gridG3
      (by norm_num [gridVar, gridMean, flatG, gridG3])
      (by norm_num [nccNum, gridMean, flatG, gridG3])

/-! ### Concrete shape-mismatch scenario (C3) -/

/-- Reference grid of shape 4 x 4 for the shape-mismatch scenario. -/
def gridRef4 : Grid := [[1, 2, 3, 4], [5, 6, 7, 8], [9, 10, 11, 12], [13, 14, 15, 16]]

/-- Target grid of shape 6 x 4, deliberately different from the reference
shape; its first four rows equal gridRef4. -/
def gridTgt6 : Grid :=
  [[1, 2, 3, 4], [5, 6, 7, 8], [9, 10, 11, 12], [13, 14, 15, 16], [0, 0, 0, 0], [0, 0, 0, 0]]

theorem beats_false_intro {x y : ℝ} (h : x < y) : beats false x y := by
  simp only [beats, Bool.false_eq_true, if_false]
  exact h

theorem c3_core :
    align_bruteforce gridRef4 gridTgt6 1 "ssd" (1/10) =
      ((0 : ℤ), (0 : ℤ), some ((0 : ℚ) : ℝ)) := by
  have halign : align_bruteforce gridRef4 gridTgt6 1 "ssd" (1/10) =
      bestShift gridRef4 gridTgt6 1 false (1/10) := by
    unfold align_bruteforce
    rw [pyLower_ssd]
  have hm : crop_margin (4 : ℤ) (1/10) = 0 := by
    norm_num [crop_margin, pyInt]
  have hwin : ∀ B : Grid, cropWin gridRef4 B (1/10) = crop2 B 0 0 4 4 := by
    intro B
    unfold cropWin
    rw [show gridH gridRef4 = (4 : ℤ) from rfl, show gridW gridRef4 = (4 : ℤ) from rfl, hm]
  have hq : ∀ dx dy : ℤ, cand_score_q gridRef4 gridTgt6 (1/10) (dx, dy) =
      ssdQ gridRef4 (crop2 (roll2 gridTgt6 dy dx) 0 0 4 4) := by
    intro dx dy
    unfold cand_score_q
    rw [hwin, hwin, show crop2 gridRef4 0 0 4 4 = gridRef4 from by decide]
  have huniq : alignD (bestShift gridRef4 gridTgt6 1 false (1/10)) = ((0 : ℤ), (0 : ℤ)) := by
    apply bestShift_unique
    · decide
    intro c hc hne
    have hl : candList 1 = [((-1 : ℤ), (-1 : ℤ)), (0, -1), (1, -1), (-1, 0), (0, 0),
        (1, 0), (-1, 1), (0, 1), (1, 1)] := by decide
    rw [hl] at hc
    simp only [List.mem_cons, List.not_mem_nil, or_false] at hc
    rcases hc with rfl | rfl | rfl | rfl | rfl | rfl | rfl | rfl | rfl
    · refine beats_false_intro ?_
      rw [cand_score_ssd, cand_score_ssd]
      refine Rat.cast_lt.mpr ?_
      rw [hq (0 : ℤ) (0 : ℤ), hq (-1 : ℤ) (-1 : ℤ),
      show roll2 gridTgt6 (0 : ℤ) (0 : ℤ) = gridTgt6 from by decide,
      show crop2 gridTgt6 0 0 4 4 = gridRef4 from by decide,
      show roll2 gridTgt6 (-1 : ℤ) (-1 : ℤ) = ([[(6 : ℚ), 7, 8, 5], [10, 11, 12, 9], [14, 15, 16, 13], [0, 0, 0, 0], [0, 0, 0, 0], [2, 3, 4, 1]] : Grid) from by decide,
      show crop2 ([[(6 : ℚ), 7, 8, 5], [10, 11, 12, 9], [14, 15, 16, 13], [0, 0, 0, 0], [0, 0, 0, 0], [2, 3, 4, 1]] : Grid) 0 0 4 4 = ([[(6 : ℚ), 7, 8, 5], [10, 11, 12, 9], [14, 15, 16, 13], [0, 0, 0, 0]] : Grid) from by decide]
      norm_num [ssdQ, flatG, gridRef4]
    · refine beats_false_intro ?_
      rw [cand_score_ssd, cand_score_ssd]
      refine Rat.cast_lt.mpr ?_
      rw [hq (0 : ℤ) (0 : ℤ), hq (0 : ℤ) (-1 : ℤ),
      show roll2 gridTgt6 (0 : ℤ) (0 : ℤ) = gridTgt6 from by decide,
      show crop2 gridTgt6 0 0 4 4 = gridRef4 from by decide,
      show roll2 gridTgt6 (-1 : ℤ) (0 : ℤ) = ([[(5 : ℚ), 6, 7, 8], [9, 10, 11, 12], [13, 14, 15, 16], [0, 0, 0, 0], [0, 0, 0, 0], [1, 2, 3, 4]] : Grid) from by decide,
      show crop2 ([[(5 : ℚ), 6, 7, 8], [9, 10, 11, 12], [13, 14, 15, 16], [0, 0, 0, 0], [0, 0, 0, 0], [1, 2, 3, 4]] : Grid) 0 0 4 4 = ([[(5 : ℚ), 6, 7, 8], [9, 10, 11, 12], [13, 14, 15, 16], [0, 0, 0, 0]] : Grid) from by decide]
      norm_num [ssdQ, flatG, gridRef4]
    · refine beats_false_intro ?_
      rw [cand_score_ssd, cand_score_ssd]
      refine Rat.cast_lt.mpr ?_
      rw [hq (0 : ℤ) (0 : ℤ), hq (1 : ℤ) (-1 : ℤ),
      show roll2 gridTgt6 (0 : ℤ) (0 : ℤ) = gridTgt6 from by decide,
      show crop2 gridTgt6 0 0 4 4 = gridRef4 from by decide,
      show roll2 gridTgt6 (-1 : ℤ) (1 : ℤ) = ([[(8 : ℚ), 5, 6, 7], [12, 9, 10, 11], [16, 13, 14, 15], [0, 0, 0, 0], [0, 0, 0, 0], [4, 1, 2, 3]] : Grid) from by decide,
      show crop2 ([[(8 : ℚ), 5, 6, 7], [12, 9, 10, 11], [16, 13, 14, 15], [0, 0, 0, 0], [0, 0, 0, 0], [4, 1, 2, 3]] : Grid) 0 0 4 4 = ([[(8 : ℚ), 5, 6, 7], [12, 9, 10, 11], [16, 13, 14, 15], [0, 0, 0, 0]] : Grid) from by decide]
      norm_num [ssdQ, flatG, gridRef4]
    · refine beats_false_intro ?_
      rw [cand_score_ssd, cand_score_ssd]
      refine Rat.cast_lt.mpr ?_
      rw [hq (0 : ℤ) (0 : ℤ), hq (-1 : ℤ) (0 : ℤ),
      show roll2 gridTgt6 (0 : ℤ) (0 : ℤ) = gridTgt6 from by decide,
      show crop2 gridTgt6 0 0 4 4 = gridRef4 from by decide,
      show roll2 gridTgt6 (0 : ℤ) (-1 : ℤ) = ([[(2 : ℚ), 3, 4, 1], [6, 7, 8, 5], [10, 11, 12, 9], [14, 15, 16, 13], [0, 0, 0, 0], [0, 0, 0, 0]] : Grid) from by decide,
      show crop2 ([[(2 : ℚ), 3, 4, 1], [6, 7, 8, 5], [10, 11, 12, 9], [14, 15, 16, 13], [0, 0, 0, 0], [0, 0, 0, 0]] : Grid) 0 0 4 4 = ([[(2 : ℚ), 3, 4, 1], [6, 7, 8, 5], [10, 11, 12, 9], [14, 15, 16, 13]] : Grid) from by decide]
      norm_num [ssdQ, flatG, gridRef4]
    · exact absurd rfl hne
    · refine beats_false_intro ?_
      rw [cand_score_ssd, cand_score_ssd]
      refine Rat.cast_lt.mpr ?_
      rw [hq (0 : ℤ) (0 : ℤ), hq (1 : ℤ) (0 : ℤ),
      show roll2 gridTgt6 (0 : ℤ) (0 : ℤ) = gridTgt6 from by decide,
      show crop2 gridTgt6 0 0 4 4 = gridRef4 from by decide,
      show roll2 gridTgt6 (0 : ℤ) (1 : ℤ) = ([[(4 : ℚ), 1, 2, 3], [8, 5, 6, 7], [12, 9, 10, 11], [16, 13, 14, 15], [0, 0, 0, 0], [0, 0, 0, 0]] : Grid) from by decide,
      show crop2 ([[(4 : ℚ), 1, 2, 3], [8, 5, 6, 7], [12, 9, 10, 11], [16, 13, 14, 15], [0, 0, 0, 0], [0, 0, 0, 0]] : Grid) 0 0 4 4 = ([[(4 : ℚ), 1, 2, 3], [8, 5, 6, 7], [12, 9, 10, 11], [16, 13, 14, 15]] : Grid) from by decide]
      norm_num [ssdQ, flatG, gridRef4]
    · refine beats_false_intro ?_
      rw [cand_score_ssd, cand_score_ssd]
      refine Rat.cast_lt.mpr ?_
      rw [hq (0 : ℤ) (0 : ℤ), hq (-1 : ℤ) (1 : ℤ),
      show roll2 gridTgt6 (0 : ℤ) (0 : ℤ) = gridTgt6 from by decide,
      show crop2 gridTgt6 0 0 4 4 = gridRef4 from by decide,
      show roll2 gridTgt6 (1 : ℤ) (-1 : ℤ) = ([[(0 : ℚ), 0, 0, 0], [2, 3, 4, 1], [6, 7, 8, 5], [10, 11, 12, 9], [14, 15, 16, 13], [0, 0, 0, 0]] : Grid) from by decide,
      show crop2 ([[(0 : ℚ), 0, 0, 0], [2, 3, 4, 1], [6, 7, 8, 5], [10, 11, 12, 9], [14, 15, 16, 13], [0, 0, 0, 0]] : Grid) 0 0 4 4 = ([[(0 : ℚ), 0, 0, 0], [2, 3, 4, 1], [6, 7, 8, 5], [10, 11, 12, 9]] : Grid) from by decide]
      norm_num [ssdQ, flatG, gridRef4]
    · refine beats_false_intro ?_
      rw [cand_score_ssd, cand_score_ssd]
      refine Rat.cast_lt.mpr ?_
      rw [hq (0 : ℤ) (0 : ℤ), hq (0 : ℤ) (1 : ℤ),
      show roll2 gridTgt6 (0 : ℤ) (0 : ℤ) = gridTgt6 from by decide,
      show crop2 gridTgt6 0 0 4 4 = gridRef4 from by decide,
      show roll2 gridTgt6 (1 : ℤ) (0 : ℤ) = ([[(0 : ℚ), 0, 0, 0], [1, 2, 3, 4], [5, 6, 7, 8], [9, 10, 11, 12], [13, 14, 15, 16], [0, 0, 0, 0]] : Grid) from by decide,
      show crop2 ([[(0 : ℚ), 0, 0, 0], [1, 2, 3, 4], [5, 6, 7, 8], [9, 10, 11, 12], [13, 14, 15, 16], [0, 0, 0, 0]] : Grid) 0 0 4 4 = ([[(0 : ℚ), 0, 0, 0], [1, 2, 3, 4], [5, 6, 7, 8], [9, 10, 11, 12]] : Grid) from by decide]
      norm_num [ssdQ, flatG, gridRef4]
    · refine beats_false_intro ?_
      rw [cand_score_ssd, cand_score_ssd]
      refine Rat.cast_lt.mpr ?_
      rw [hq (0 : ℤ) (0 : ℤ), hq (1 : ℤ) (1 : ℤ),
      show roll2 gridTgt6 (0 : ℤ) (0 : ℤ) = gridTgt6 from by decide,
      show crop2 gridTgt6 0 0 4 4 = gridRef4 from by decide,
      show roll2 gridTgt6 (1 : ℤ) (1 : ℤ) = ([[(0 : ℚ), 0, 0, 0], [4, 1, 2, 3], [8, 5, 6, 7], [12, 9, 10, 11], [16, 13, 14, 15], [0, 0, 0, 0]] : Grid) from by decide,
      show crop2 ([[(0 : ℚ), 0, 0, 0], [4, 1, 2, 3], [8, 5, 6, 7], [12, 9, 10, 11], [16, 13, 14, 15], [0, 0, 0, 0]] : Grid) 0 0 4 4 = ([[(0 : ℚ), 0, 0, 0], [4, 1, 2, 3], [8, 5, 6, 7], [12, 9, 10, 11]] : Grid) from by decide]
      norm_num [ssdQ, flatG, gridRef4]
  obtain ⟨r, l1, l2, hfold, hsplitr, h1, h2⟩ :=
    bestShift_split gridRef4 gridTgt6 1 false (1/10) (by decide)
  have hr : alignD (bestShift gridRef4 gridTgt6 1 false (1/10)) = r := by
    rw [hfold]
    rfl
  have hr0 : r = ((0 : ℤ), (0 : ℤ)) := by
    rw [← hr]
    exact huniq
  rw [halign, hfold, hr0]
  have hscore0 : cand_score gridRef4 gridTgt6 (1/10) false ((0 : ℤ), (0 : ℤ)) = ((0 : ℚ) : ℝ) := by
    rw [cand_score_ssd]
    congr 1
    rw [hq (0 : ℤ) (0 : ℤ),
      show roll2 gridTgt6 (0 : ℤ) (0 : ℤ) = gridTgt6 from by decide,
      show crop2 gridTgt6 0 0 4 4 = gridRef4 from by decide]
    exact ssdQ_self gridRef4
  rw [hscore0]

/-- C2 counterexample: for the non-periodic grid gridG3 circularly shifted
by (sdx, sdy) = (+1, 0) with the apply_alignment wrap-around model,
align_bruteforce with radius 1 and the default metric ncc does not return
(sdx, sdy) = (1, 0) as the claim asserts. -/
theorem align_shift_not_recovered :
    alignD (align_bruteforce gridG3 (apply_alignment gridG3 1 0) 1 "ncc" (1/10)) ≠
      ((1 : ℤ), (0 : ℤ)) := by
  intro heq
  exact absurd (c2_core.symm.trans heq) (by decide)

/-- C2 amended: the search recovers the inverse displacement: shifting by
(sdx, sdy) and aligning returns (-sdx, -sdy), the displacement that maps
the shifted grid back onto the reference; in particular this concrete
non-periodic 3x3 grid shifted by (+1, 0) yields (-1, 0) under radius 1 and
metric ncc. -/
theorem align_shift_inverse_recovered :
    alignD (align_bruteforce gridG3 (apply_alignment gridG3 1 0) 1 "ncc" (1/10)) =
      ((-1 : ℤ), (0 : ℤ)) :=
  c2_core

/-- C3 counterexample: reference (4 x 4) and target (6 x 4) are both 2-D
grids with different shapes, yet the call is not rejected: the search runs
to completion and returns the full result (0, 0, 0.0). -/
theorem shape_mismatch_not_rejected :
    gridShape gridRef4 ≠ gridShape gridTgt6 ∧
    align_bruteforce gridRef4 gridTgt6 1 "ssd" (1/10) =
      ((0 : ℤ), (0 : ℤ), some ((0 : ℚ) : ℝ)) :=
  ⟨by decide, c3_core⟩

/-- C3 amended: align_bruteforce checks only that its inputs are
2-dimensional; it never compares the two shapes. A call whose 2-D shapes
differ proceeds through the whole search with margins and slice bounds
taken from the reference shape (slices clamp on the larger target) and
returns a displacement from the candidate square. -/
theorem shape_mismatch_runs_search :
    gridShape gridRef4 ≠ gridShape gridTgt6 ∧
    alignD (align_bruteforce gridRef4 gridTgt6 1 "ssd" (1/10)) ∈ candList 1 := by
  refine ⟨by decide, ?_⟩
  rw [c3_core]
  decide

/-! ### Tie-breaking (C6) -/

/-- C6: ties keep the first-enumerated candidate: if c1 precedes c2 in the
(dy outer, dx inner) row-major enumeration and the two scores are equal,
the search never returns c2, because a later candidate replaces the
running best only on a strictly better score. -/
theorem align_tie_keeps_first (reference target : Grid) (R : ℤ) (metric : String) (ec : ℚ)
    (c1 c2 : ℤ × ℤ) (A B C : List (ℤ × ℤ))
    (hsplit : candList R = A ++ c1 :: B ++ c2 :: C) (hne12 : c1 ≠ c2)
    (heq : align_score reference target metric ec c1 =
      align_score reference target metric ec c2) :
    alignD (align_bruteforce reference target R metric ec) ≠ c2 := by
  unfold align_score at heq
  unfold align_bruteforce
  exact bestShift_ne_tied reference target R (pyLower metric == "ncc") ec c1 c2 A B C
    hsplit hne12 heq

/-- Periodic 2 x 2 grid with nonzero variance; rolling it by any diagonal
offset reproduces it exactly, creating score ties. -/
def gridP2 : Grid := [[0, 1], [1, 0]]

/-- Witness for C6: on the periodic grid gridP2 against itself with SSD,
candidates (-1, -1) and (0, 0) tie at score zero and the first-enumerated
one wins, so the search does not return (0, 0). -/
theorem align_tie_keeps_first_witness :
    (candList 1 = [] ++ ((-1 : ℤ), (-1 : ℤ)) ::
        [((0 : ℤ), (-1 : ℤ)), (1, -1), (-1, 0)] ++ ((0 : ℤ), (0 : ℤ)) ::
          [((1 : ℤ), (0 : ℤ)), (-1, 1), (0, 1), (1, 1)] ∧
     ((-1 : ℤ), (-1 : ℤ)) ≠ ((0 : ℤ), (0 : ℤ)) ∧
     align_score gridP2 gridP2 "ssd" (1/10) ((-1 : ℤ), (-1 : ℤ)) =
       align_score gridP2 gridP2 "ssd" (1/10) ((0 : ℤ), (0 : ℤ))) ∧
    alignD (align_bruteforce gridP2 gridP2 1 "ssd" (1/10)) ≠ ((0 : ℤ), (0 : ℤ)) := by
  have hsplit : candList 1 = [] ++ ((-1 : ℤ), (-1 : ℤ)) ::
      [((0 : ℤ), (-1 : ℤ)), (1, -1), (-1, 0)] ++ ((0 : ℤ), (0 : ℤ)) ::
        [((1 : ℤ), (0 : ℤ)), (-1, 1), (0, 1), (1, 1)] := by decide
  have hne : ((-1 : ℤ), (-1 : ℤ)) ≠ ((0 : ℤ), (0 : ℤ)) := by decide
  have heq : align_score gridP2 gridP2 "ssd" (1/10) ((-1 : ℤ), (-1 : ℤ)) =
      align_score gridP2 gridP2 "ssd" (1/10) ((0 : ℤ), (0 : ℤ)) := by
    unfold align_score
    rw [pyLower_ssd, cand_score_ssd, cand_score_ssd]
    congr 1
  exact ⟨⟨hsplit, hne, heq⟩,
    align_tie_keeps_first gridP2 gridP2 1 "ssd" (1/10) _ _ _ _ _ hsplit hne heq⟩

/-! ### Shape preservation of the circular shift and the crop (for C7) -/

theorem rotList_length {α : Type} (k : ℤ) (l : List α) :
    (rotList k l).length = l.length := by
  unfold rotList
  split
  · rfl
  · simp only [List.length_append, List.length_drop, List.length_take]
    omega

theorem rotList_map {α β : Type} (f : α → β) (k : ℤ) (l : List α) :
    (rotList k l).map f = rotList k (l.map f) := by
  by_cases h : l.length = 0
  · simp [rotList, h]
  · simp [rotList, h, List.map_append, List.map_drop, List.map_take]

theorem rotList_replicate {α : Type} (k : ℤ) (n : ℕ) (a : α) :
    rotList k (List.replicate n a) = List.replicate n a := by
  unfold rotList
  split
  · rfl
  · rename_i hn
    simp only [List.length_replicate] at hn ⊢
    rw [List.drop_replicate, List.take_replicate, ← List.replicate_add]
    congr 1
    have hpos : 0 < (n : ℤ) := by omega
    have h1 : k % (n : ℤ) < (n : ℤ) := Int.emod_lt_of_pos _ hpos
    have h2 : 0 ≤ k % (n : ℤ) := Int.emod_nonneg _ (by omega)
    omega

theorem rotList_zero {α : Type} (l : List α) : rotList 0 l = l := by
  unfold rotList
  split
  · rfl
  · simp

theorem roll2_zero (g : Grid) : roll2 g 0 0 = g := by
  unfold roll2
  rw [rotList_zero]
  calc List.map (fun row => rotList 0 row) g
      = List.map id g := List.map_congr_left fun r _ => rotList_zero r
    _ = g := List.map_id g

theorem rect_profile (G : Grid) (hrect : IsRect G) :
    G.map List.length = List.replicate G.length (gridW G).toNat := by
  rw [List.eq_replicate_iff]
  refine ⟨List.length_map _ _, ?_⟩
  intro b hb
  simp only [List.mem_map] at hb
  obtain ⟨r, hr, rfl⟩ := hb
  have := hrect r hr
  omega

theorem roll2_profile (G : Grid) (dy dx : ℤ) (hrect : IsRect G) :
    (roll2 G dy dx).map List.length = G.map List.length := by
  unfold roll2
  rw [List.map_map]
  calc List.map (List.length ∘ fun row => rotList dx row) (rotList dy G)
      = List.map List.length (rotList dy G) :=
        List.map_congr_left fun r _ => rotList_length dx r
    _ = rotList dy (G.map List.length) := rotList_map List.length dy G
    _ = G.map List.length := by
        rw [rect_profile G hrect, rotList_replicate, ← rect_profile G hrect]

theorem crop2_profile (g : Grid) (ch cw h w : ℤ) :
    (crop2 g ch cw h w).map List.length =
      (((g.map List.length).drop ch.toNat).take (h - ch - ch).toNat).map
        (fun n => min (w - cw - cw).toNat (n - cw.toNat)) := by
  unfold crop2
  rw [← List.map_drop, ← List.map_take, List.map_map, List.map_map]
  exact List.map_congr_left fun r _ => by
    simp [Function.comp, List.length_take, List.length_drop]

theorem grid_eq_of_flat_eq :
    ∀ (g1 g2 : Grid), g1.map List.length = g2.map List.length →
      flatG g1 = flatG g2 → g1 = g2 := by
  intro g1
  induction g1 with
  | nil =>
    intro g2 hp _
    cases g2 with
    | nil => rfl
    | cons s u => simp at hp
  | cons r t ih =>
    intro g2 hp hf
    cases g2 with
    | nil => simp at hp
    | cons s u =>
      simp only [List.map_cons, List.cons.injEq] at hp
      unfold flatG at hf
      simp only [List.flatten_cons] at hf
      obtain ⟨h1, h2⟩ := List.append_inj hf hp.1
      rw [h1, ih u hp.2 h2]

theorem cropWin_same_profile (G X : Grid) (ec : ℚ)
    (hprof : X.map List.length = G.map List.length) :
    (cropWin G X ec).map List.length = (cropWin G G ec).map List.length := by
  unfold cropWin
  rw [crop2_profile, crop2_profile, hprof]

theorem beats_false_elim {x y : ℝ} (h : beats false x y) : x < y := by
  simp only [beats, Bool.false_eq_true, if_false] at h
  exact h

/-! ### Identity alignment (C7) -/

/-- C7 counterexample: the periodic grid gridP2 = [[0,1],[1,0]] has
nonzero variance, yet align_bruteforce(G, G, R = 2, ssd) returns (-2, -2)
instead of (0, 0): the wrap-around makes the first-enumerated candidate
(-2, -2) an exact match, and ties keep the first-seen candidate. -/
theorem identity_periodic_counterexample :
    gridVar gridP2 ≠ 0 ∧
    alignD (align_bruteforce gridP2 gridP2 2 "ssd" (1/10)) = ((-2 : ℤ), (-2 : ℤ)) ∧
    alignD (align_bruteforce gridP2 gridP2 2 "ssd" (1/10)) ≠ ((0 : ℤ), (0 : ℤ)) := by
  have hvar : gridVar gridP2 ≠ 0 := by
    norm_num [gridVar, gridMean, flatG, gridP2]
  have halign : align_bruteforce gridP2 gridP2 2 "ssd" (1/10) =
      bestShift gridP2 gridP2 2 false (1/10) := by
    unfold align_bruteforce
    rw [pyLower_ssd]
  have h0 : cand_score_q gridP2 gridP2 (1/10) ((-2 : ℤ), (-2 : ℤ)) = 0 := by
    unfold cand_score_q
    rw [show roll2 gridP2 ((-2 : ℤ), (-2 : ℤ)).2 ((-2 : ℤ), (-2 : ℤ)).1 = gridP2 from by decide]
    exact ssdQ_self _
  have hres : alignD (bestShift gridP2 gridP2 2 false (1/10)) = ((-2 : ℤ), (-2 : ℤ)) := by
    apply bestShift_first gridP2 gridP2 2 false (1/10) ((-2 : ℤ), (-2 : ℤ)) ((candList 2).tail)
    · decide
    intro c hc hb
    have hlt := beats_false_elim hb
    rw [cand_score_ssd, cand_score_ssd, h0] at hlt
    have hnn : (0 : ℚ) ≤ cand_score_q gridP2 gridP2 (1/10) c := ssdQ_nonneg _ _
    have : cand_score_q gridP2 gridP2 (1/10) c < 0 := by exact_mod_cast hlt
    linarith
  refine ⟨hvar, ?_, ?_⟩
  · rw [halign]
    exact hres
  · rw [halign, hres]
    decide

/-- C7 amended: align_bruteforce(G, G, R, ssd) returns (0, 0) for every
rectangular grid G, radius R >= 0 and edge-crop fraction such that no
in-range candidate other than (0, 0) reproduces the cropped reference
exactly on the scoring window (in particular G must not be periodic with
period within the search range on that window); the tied-wrap-around case
of the counterexample is thereby excluded. -/
theorem align_identity_ssd (G : Grid) (R : ℤ) (ec : ℚ)
    (hrect : IsRect G) (hR : 0 ≤ R)
    (hdiff : ∀ c ∈ candList R, c ≠ ((0 : ℤ), (0 : ℤ)) →
      cropWin G (roll2 G c.2 c.1) ec ≠ cropWin G G ec) :
    alignD (align_bruteforce G G R "ssd" ec) = ((0 : ℤ), (0 : ℤ)) := by
  have halign : align_bruteforce G G R "ssd" ec = bestShift G G R false ec := by
    unfold align_bruteforce
    rw [pyLower_ssd]
  rw [halign]
  apply bestShift_unique
  · exact candList_zero_mem hR
  intro c hc hne
  refine beats_false_intro ?_
  rw [cand_score_ssd, cand_score_ssd]
  refine Rat.cast_lt.mpr ?_
  have h00 : cand_score_q G G ec ((0 : ℤ), (0 : ℤ)) = 0 := by
    unfold cand_score_q
    rw [show roll2 G ((0 : ℤ), (0 : ℤ)).2 ((0 : ℤ), (0 : ℤ)).1 = G from roll2_zero G]
    exact ssdQ_self _
  rw [h00]
  unfold cand_score_q
  have hprof : (cropWin G (roll2 G c.2 c.1) ec).map List.length =
      (cropWin G G ec).map List.length :=
    cropWin_same_profile G (roll2 G c.2 c.1) ec (roll2_profile G c.2 c.1 hrect)
  apply ssdQ_pos
  · unfold flatG
    rw [List.length_flatten, List.length_flatten, hprof]
  · intro hf
    exact hdiff c hc hne (grid_eq_of_flat_eq _ _ hprof.symm hf).symm

/-- Aperiodic 2 x 2 grid for the identity-alignment witness. -/
def gridA2 : Grid := [[0, 1], [2, 3]]

/-- Witness for C7's amended statement: the aperiodic grid gridA2 against
itself with radius 1 yields displacement (0, 0). -/
theorem align_identity_ssd_witness :
    (IsRect gridA2 ∧ (0 : ℤ) ≤ 1 ∧
     (∀ c ∈ candList 1, c ≠ ((0 : ℤ), (0 : ℤ)) →
       cropWin gridA2 (roll2 gridA2 c.2 c.1) (1/10) ≠ cropWin gridA2 gridA2 (1/10))) ∧
    alignD (align_bruteforce gridA2 gridA2 1 "ssd" (1/10)) = ((0 : ℤ), (0 : ℤ)) := by
  have hrect : IsRect gridA2 := by decide
  have hR : (0 : ℤ) ≤ 1 := by decide
  have hm2 : crop_margin (2 : ℤ) (1/10) = 0 := by
    norm_num [crop_margin, pyInt]
  have hwin : ∀ B : Grid, cropWin gridA2 B (1/10) = crop2 B 0 0 2 2 := by
    intro B
    unfold cropWin
    rw [show gridH gridA2 = (2 : ℤ) from rfl, show gridW gridA2 = (2 : ℤ) from rfl, hm2]
  have hdiff : ∀ c ∈ candList 1, c ≠ ((0 : ℤ), (0 : ℤ)) →
      cropWin gridA2 (roll2 gridA2 c.2 c.1) (1/10) ≠ cropWin gridA2 gridA2 (1/10) := by
    intro c hc hne
    rw [hwin, hwin]
    have hl : candList 1 = [((-1 : ℤ), (-1 : ℤ)), (0, -1), (1, -1), (-1, 0), (0, 0),
        (1, 0), (-1, 1), (0, 1), (1, 1)] := by decide
    rw [hl] at hc
    simp only [List.mem_cons, List.not_mem_nil, or_false] at hc
    rcases hc with rfl | rfl | rfl | rfl | rfl | rfl | rfl | rfl | rfl <;>
      first
        | exact absurd rfl hne
        | decide
  exact ⟨⟨hrect, hR, hdiff⟩,
    align_identity_ssd gridA2 1 (1/10) hrect hR hdiff⟩
